import Mathlib

/-!
# Portal: manifest schema validation (`internal/schemas/v1`) and the manifest store (`internal/core`)

A shallow embedding of `Schema.Validate` and its per-section validators, and of
`Core.UpsertManifest` / `Core.UpdateManifestStatus`, followed by the properties proved of them.

Conventions of the embedding
* Go `error` results are `Option VError` (`none` is `nil`); `(T, error)` results are `Except VError T`
  or a pair.
* Go `len(s)` on a string is the UTF-8 byte length, `len`.
* Go `int` values are `Int`; `float64` amounts are exact rationals (`ℚ`): a decoded JSON number is
  never NaN or infinite.
* `for n, o := range xs` loops with an early `return err` are `rangeLoop`.
* `fmt.Sprintf("projects[%d].name", n)` is the structured tag `Tag.idx "projects" n "name"`.
-/

namespace Portal

/-! ## Field paths and errors -/

/-- The field path given as the first argument of every check.
`plain "entity.type"` is the literal `"entity.type"`;
`idx "projects" n "name"` is `fmt.Sprintf("projects[%d].name", n)`;
`idx2 "projects" n "tags" i` is `fmt.Sprintf("projects[%d].tags[%d]", n, i)`. -/
inductive Tag where
  | plain (name : String)
  | idx (sec : String) (n : Nat) (field : String)
  | idx2 (sec : String) (n : Nat) (field : String) (i : Nat)
  deriving DecidableEq, Repr

/-- The kinds of validation error (spec section 7), with `malformed` for a value that is not a
well-formed identifier, tag, e-mail address or URL. -/
inductive ErrKind where
  | malformed
  | rangeViolation
  | enumMismatch
  | lookupMiss
  | ownershipUnverified
  | crossReferenceMissing
  deriving DecidableEq, Repr

/-- A validation error: what went wrong and the field path it is reported under. -/
structure VError where
  kind : ErrKind
  tag : Tag
  deriving DecidableEq, Repr

/-- Go `len(s)` of a string: its length in bytes. -/
def len (s : String) : Int := (s.utf8ByteSize : Int)

/-- Go `len(xs)` of a slice. -/
def lenSlice {α : Type} (xs : List α) : Int := (xs.length : Int)

/-- Go `strings.HasPrefix(s, p)`. -/
def startsWithStr (s p : String) : Bool := p.data.isPrefixOf s.data

/-- A parsed URL (`*url.URL`), as far as the checks look at it. -/
structure URL where
  Scheme : String
  Host : String
  Path : String
  deriving DecidableEq, Repr

/-! ## Package `validations` -/

namespace validations

/-- The answers of the well-formedness and ownership checks of package `validations`, whose
source is missing: they are held fixed while a manifest is validated. -/
structure Answers where
  /-- Parse of a URL string, `none` when it is not a well-formed URL. -/
  parseURL : String → Option URL
  /-- Whether a string is a well-formed e-mail address. -/
  emailOK : String → Bool
  /-- Whether a string is a well-formed identifier. -/
  idOK : String → Bool
  /-- Whether a string is a well-formed tag. -/
  tagOK : String → Bool
  /-- Whether the well-known document of the reference's origin, at the given path, attests to
  the manifest URL. -/
  attests : URL → String → URL → Bool

/-- Modelled from the spec: `validations.InRange` (source missing), the generic closed
interval check "length/value within [min,max]"; "violating either bound is an error, not a
clamp", and the error carries the field path it was given. -/
def InRange {α : Type} [LT α] [DecidableRel (fun (a b : α) => a < b)]
    (tag : Tag) (val min max : α) : Option VError :=
  if val < min ∨ max < val then some ⟨ErrKind.rangeViolation, tag⟩ else none

/-- Modelled from the spec: `validations.InList` (source missing), "membership in an
enumerated set", an exact match against a fixed allowed-value list. -/
def InList (tag : Tag) (val : String) (vals : List String) : Option VError :=
  if val ∈ vals then none else some ⟨ErrKind.enumMismatch, tag⟩

/-- Modelled from the spec: `validations.InMap` (source missing), "membership in a lookup
table": the value has to be a key of the map. The map name is used in the message only. -/
def InMap (tag : Tag) (_mapName : String) (val : String) (vals : List (String × String)) :
    Option VError :=
  if (vals.lookup val).isSome then none else some ⟨ErrKind.lookupMiss, tag⟩

/-- Modelled from the spec: `validations.IsURL` (source missing), "manifest URL
well-formedness and length": the string is at most `maxLen` long and parses as a URL, which is
returned. -/
def IsURL (a : Answers) (tag : Tag) (u : String) (maxLen : Int) : Except VError URL :=
  match InRange tag (len u) 0 maxLen with
  | some err => Except.error err
  | none =>
    match a.parseURL u with
    | none => Except.error ⟨ErrKind.malformed, tag⟩
    | some p => Except.ok p

/-- Modelled from the spec: `validations.IsEmail` (source missing), "well-formedness of
... emails" within a maximum length. -/
def IsEmail (a : Answers) (tag : Tag) (e : String) (maxLen : Int) : Option VError :=
  match InRange tag (len e) 0 maxLen with
  | some err => some err
  | none => if a.emailOK e then none else some ⟨ErrKind.malformed, tag⟩

/-- Modelled from the spec: `validations.IsID` (source missing), "well-formedness of
identifiers" with a length within `[min,max]`. -/
def IsID (a : Answers) (tag : Tag) (val : String) (min max : Int) : Option VError :=
  match InRange tag (len val) min max with
  | some err => some err
  | none => if a.idOK val then none else some ⟨ErrKind.malformed, tag⟩

/-- Modelled from the spec: `validations.IsTag` (source missing), a well-formed tag with a
length within `[min,max]`. -/
def IsTag (a : Answers) (tag : Tag) (val : String) (min max : Int) : Option VError :=
  match InRange tag (len val) min max with
  | some err => some err
  | none => if a.tagOK val then none else some ⟨ErrKind.malformed, tag⟩

/-- Modelled from the spec: `validations.WellKnownURL` (source missing), the ownership
check of spec section 4.3: a reference that shares the manifest's origin (scheme and host) is
trusted; otherwise it is accepted only if the manifest marks it as verified by well-known and the
document at the reference's origin and the well-known path attests to the manifest URL. -/
def WellKnownURL (a : Answers) (tag : Tag) (manifest : URL) (u : String) (wellKnown : Bool)
    (wellKnownPath : String) (maxLen : Int) : Option VError :=
  match IsURL a tag u maxLen with
  | Except.error err => some err
  | Except.ok ref =>
    if ref.Scheme = manifest.Scheme ∧ ref.Host = manifest.Host then none
    else if wellKnown && a.attests ref wellKnownPath manifest then none
    else some ⟨ErrKind.ownershipUnverified, tag⟩

end validations

/-! ## Package `schemas/v1`: data model -/

namespace v1

open validations

/-- A URL reference with its well-known flag (`o.WebpageURL.URL`, `o.WebpageURL.WellKnown`). -/
structure URLRef where
  URL : String
  WellKnown : Bool
  deriving DecidableEq, Repr

structure Entity where
  Type_ : String
  Role : String
  Name : String
  Email : String
  Telephone : String
  WebpageURL : URLRef
  deriving DecidableEq, Repr

structure Project where
  Name : String
  Description : String
  WebpageURL : URLRef
  RepositoryUrl : URLRef
  License : String
  Frameworks : List String
  Tags : List String
  deriving DecidableEq, Repr

structure Channel where
  ID : String
  Type_ : String
  Address : String
  Description : String
  deriving DecidableEq, Repr

structure Plan where
  ID : String
  Status : String
  Name : String
  Description : String
  Amount : ℚ
  Currency : String
  Frequency : String
  Channels : List String
  deriving DecidableEq, Repr

structure History where
  Year : Int
  Income : ℚ
  Expenses : ℚ
  Description : String
  deriving DecidableEq, Repr

structure Funding where
  Channels : List Channel
  Plans : List Plan
  History : List History
  deriving DecidableEq, Repr

structure Manifest where
  Version : String
  URL : String
  Body : String
  Entity : Entity
  Projects : List Project
  Funding : Funding
  deriving DecidableEq, Repr

/-- The options injected into a schema: the lookup tables and the well-known path. -/
structure Opt where
  /-- Map of SPDX ID: License name. -/
  Licenses : List (String × String)
  /-- Map of programming language names. -/
  ProgrammingLanguages : List (String × String)
  /-- Map of curency code and names. -/
  Currencies : List (String × String)
  WellKnownPath : String

/-- Schema represents the schema+parser+validator for a particular version. -/
structure Schema where
  exactVersion : String
  opt : Opt

/-- The package-level allowed-value lists of `schemas/v1` (`EntityTypes`, `EntityRoles`,
`PlanStatuses`, `PlanFrequencies`), declared in another file of the package and so taken as
parameters, together with the answers of package `validations`. -/
structure Pkg where
  EntityTypes : List String
  EntityRoles : List String
  PlanStatuses : List String
  PlanFrequencies : List String
  answers : Answers

/-- A range loop with an early return:
`for n, o := range xs { if err := body(o, n); err != nil { return err } }`, started at index `n`. -/
def rangeLoop {α : Type} (body : α → Nat → Option VError) : Nat → List α → Option VError
  | _, [] => none
  | n, o :: rest =>
    match body o n with
    | some err => some err
    | none => rangeLoop body (n + 1) rest

/-! ## Package `schemas/v1`: the validators -/

def ValidateEntity (p : Pkg) (s : Schema) (o : Entity) (manifest : URL) : Option VError :=
  match InList (Tag.plain "entity.type") o.Type_ p.EntityTypes with
  | some err => some err
  | none =>
  match InList (Tag.plain "entity.role") o.Type_ p.EntityRoles with
  | some err => some err
  | none =>
  match InRange (Tag.plain "entity.name") (len o.Name) 2 128 with
  | some err => some err
  | none =>
  match IsEmail p.answers (Tag.plain "entity.email") o.Email 128 with
  | some err => some err
  | none =>
  match InRange (Tag.plain "entity.telephone") (len o.Telephone) 0 24 with
  | some err => some err
  | none =>
  match WellKnownURL p.answers (Tag.plain "entity.webpageUrl") manifest o.WebpageURL.URL
      o.WebpageURL.WellKnown s.opt.WellKnownPath 1024 with
  | some err => some err
  | none => none

/-- The body of the frameworks loop of `ValidateProject`. -/
def frameworkCheck (s : Schema) (n : Nat) (f : String) (i : Nat) : Option VError :=
  match InRange (Tag.idx2 "projects" n "frameworks" i) (len f) 2 64 with
  | some err => some err
  | none =>
    if startsWithStr f "lang:" then
      match InMap (Tag.idx2 "projects" n "frameworks" i) "default programming language list" f
          s.opt.ProgrammingLanguages with
      | some err => some err
      | none => none
    else none

/-- The body of the tags loop of `ValidateProject`. -/
def tagCheck (p : Pkg) (n : Nat) (t : String) (i : Nat) : Option VError :=
  match IsTag p.answers (Tag.idx2 "projects" n "tags" i) t 2 32 with
  | some err => some err
  | none => none

def ValidateProject (p : Pkg) (s : Schema) (o : Project) (n : Nat) (manifest : URL) :
    Option VError :=
  match InRange (Tag.idx "projects" n "name") (len o.Name) 1 256 with
  | some err => some err
  | none =>
  match InRange (Tag.idx "projects" n "description") (len o.Description) 5 1024 with
  | some err => some err
  | none =>
  match WellKnownURL p.answers (Tag.idx "projects" n "webpageUrl") manifest o.WebpageURL.URL
      o.WebpageURL.WellKnown s.opt.WellKnownPath 1024 with
  | some err => some err
  | none =>
  match WellKnownURL p.answers (Tag.idx "projects" n "repositoryUrl") manifest o.RepositoryUrl.URL
      o.RepositoryUrl.WellKnown s.opt.WellKnownPath 1024 with
  | some err => some err
  | none =>
  -- License.
  match InRange (Tag.idx "projects" n "license") (len o.License) 2 64 with
  | some err => some err
  | none =>
  match (if startsWithStr o.License "spdx:" then
      InMap (Tag.idx "projects" n "license") "spdx license list" o.License s.opt.Licenses
    else none) with
  | some err => some err
  | none =>
  -- Frameworks.
  match InRange (Tag.idx "projects" n "frameworks") (lenSlice o.Frameworks) 0 5 with
  | some err => some err
  | none =>
  match rangeLoop (frameworkCheck s n) 0 o.Frameworks with
  | some err => some err
  | none =>
  -- Tags.
  match InRange (Tag.idx "projects" n "tags") (lenSlice o.Tags) 1 10 with
  | some err => some err
  | none =>
  match rangeLoop (tagCheck p n) 0 o.Tags with
  | some err => some err
  | none => none

def ValidateChannel (p : Pkg) (_s : Schema) (o : Channel) (n : Nat) : Option VError :=
  match IsID p.answers (Tag.idx "channels" n "id") o.ID 3 32 with
  | some err => some err
  | none =>
  match InList (Tag.idx "channels" n "type") o.Type_ p.EntityTypes with
  | some err => some err
  | none =>
  match InRange (Tag.idx "channels" n "address") (len o.Address) 0 128 with
  | some err => some err
  | none =>
  match InRange (Tag.idx "channels" n "description") (len o.Description) 0 1024 with
  | some err => some err
  | none => none

/-- The loop over `o.Channels` of `ValidatePlan`: the first id that is not a key of
`channelIDs` gives `fmt.Errorf("unknown channel id in plans[%d].frequency", n)`. -/
def planChannelsLoop (n : Nat) (channelIDs : List String) : List String → Option VError
  | [] => none
  | ch :: rest =>
    if ch ∈ channelIDs then planChannelsLoop n channelIDs rest
    else some ⟨ErrKind.crossReferenceMissing, Tag.idx "plans" n "frequency"⟩

/-- The set `channelIDs` (a Go `map[string]struct{}`) is the list of its keys. -/
def ValidatePlan (p : Pkg) (s : Schema) (o : Plan) (n : Nat) (channelIDs : List String) :
    Option VError :=
  match IsID p.answers (Tag.idx "plans" n "id") o.ID 3 32 with
  | some err => some err
  | none =>
  match InList (Tag.idx "plans" n "status") o.Status p.PlanStatuses with
  | some err => some err
  | none =>
  match InRange (Tag.idx "plans" n "name") (len o.Name) 3 128 with
  | some err => some err
  | none =>
  match InRange (Tag.idx "plans" n "description") (len o.Description) 0 1024 with
  | some err => some err
  | none =>
  match InRange (Tag.idx "plans" n "amount") o.Amount 0 1000000000 with
  | some err => some err
  | none =>
  match InMap (Tag.idx "plans" n "currency") "currencies list" o.Currency s.opt.Currencies with
  | some err => some err
  | none =>
  match InList (Tag.idx "plans" n "frequency") o.Frequency p.PlanFrequencies with
  | some err => some err
  | none =>
  match planChannelsLoop n channelIDs o.Channels with
  | some err => some err
  | none => none

def ValidateHistory (_p : Pkg) (_s : Schema) (o : History) (n : Nat) : Option VError :=
  match InRange (Tag.idx "history" n "year") o.Year 1970 2075 with
  | some err => some err
  | none =>
  match InRange (Tag.idx "plans" n "income") o.Income 0 1000000000 with
  | some err => some err
  | none =>
  match InRange (Tag.idx "plans" n "expenses") o.Expenses 0 1000000000 with
  | some err => some err
  | none =>
  match InRange (Tag.idx "projects" n "description") (len o.Description) 0 1024 with
  | some err => some err
  | none => none

/-- The funding channels loop of `Validate`: every channel is validated and then its id is put
into `chIDs` (`chIDs[o.ID] = struct{}{}`); the loop stops at the first error. The set `chIDs` is
the list of its keys, so that an id already present is not added again. -/
def channelsLoop (p : Pkg) (s : Schema) : Nat → List Channel → List String →
    Except VError (List String)
  | _, [], chIDs => Except.ok chIDs
  | n, o :: rest, chIDs =>
    match ValidateChannel p s o n with
    | some err => Except.error err
    | none => channelsLoop p s (n + 1) rest (chIDs.insert o.ID)

/-- Validate validates a given manifest against its schema. -/
def Validate (p : Pkg) (s : Schema) (m : Manifest) : Manifest × Option VError :=
  match IsURL p.answers (Tag.plain "manifest URL") m.URL 1024 with
  | Except.error err => (m, some err)
  | Except.ok mURL =>
  -- Entity.
  match ValidateEntity p s m.Entity mURL with
  | some err => (m, some err)
  | none =>
  -- Projects.
  match rangeLoop (fun o n => ValidateProject p s o n mURL) 0 m.Projects with
  | some err => (m, some err)
  | none =>
  -- Funding channels.
  match channelsLoop p s 0 m.Funding.Channels [] with
  | Except.error err => (m, some err)
  | Except.ok chIDs =>
  -- Funding plans.
  match rangeLoop (fun o n => ValidatePlan p s o n chIDs) 0 m.Funding.Plans with
  | some err => (m, some err)
  | none =>
  -- History.
  match rangeLoop (fun o n => ValidateHistory p s o n) 0 m.Funding.History with
  | some err => (m, some err)
  | none => (m, none)

/-! ## The documented order of the checks -/

/-- The first error of a sequence of check results, `none` when every check passed. -/
def firstError : List (Option VError) → Option VError
  | [] => none
  | some err :: _ => some err
  | none :: rest => firstError rest

/-- The sequence of checks in the order the spec documents: the manifest URL check, the entity,
every project in array order, every channel in array order, every plan in array order against
the ids of all channels, every history entry in array order. When the manifest URL check fails
there is no parsed manifest URL to run the later checks against and the sequence is that one
failure. -/
def checkSequence (p : Pkg) (s : Schema) (m : Manifest) : List (Option VError) :=
  match IsURL p.answers (Tag.plain "manifest URL") m.URL 1024 with
  | Except.error err => [some err]
  | Except.ok mURL =>
    [none, ValidateEntity p s m.Entity mURL]
      ++ m.Projects.enum.map (fun x => ValidateProject p s x.2 x.1 mURL)
      ++ m.Funding.Channels.enum.map (fun x => ValidateChannel p s x.2 x.1)
      ++ m.Funding.Plans.enum.map
          (fun x => ValidatePlan p s x.2 x.1 (m.Funding.Channels.map (fun c => c.ID)))
      ++ m.Funding.History.enum.map (fun x => ValidateHistory p s x.2 x.1)

end v1

/-! ## Package `core`: the manifest store -/

namespace core

def ManifestStatusPending : String := "pending"

def ManifestStatusActive : String := "active"

def ManifestStatusExpiring : String := "expiring"

def ManifestStatusDisabled : String := "disabled"

/-- The four values of the lifecycle status. -/
def ManifestStatuses : List String :=
  [ManifestStatusPending, ManifestStatusActive, ManifestStatusExpiring, ManifestStatusDisabled]

/-- A row of the `manifests` table: the surrogate id and the columns the upsert statement
writes. -/
structure Row where
  ID : Int
  Version : String
  URL : String
  Body : String
  Entity : String
  Projects : String
  Channels : String
  Plans : String
  History : String
  Meta : String
  Status : String
  deriving DecidableEq, Repr

/-- The database: whether the connection is up, and the rows of the `manifests` table. -/
structure DB where
  up : Bool
  rows : List Row
  deriving DecidableEq, Repr

/-- The arguments of `upsert-manifest`, in the order they are passed to `Exec`. -/
structure UpsertArgs where
  Version : String
  URL : String
  Body : String
  Entity : String
  Projects : String
  Channels : String
  Plans : String
  History : String
  Meta : String
  Status : String

/-- Queries contains prepared DB queries: executing one on a database gives the database after
it, or an error. -/
structure Queries where
  UpsertManifest : DB → UpsertArgs → Except String DB
  UpdateManifestStatus : DB → Int → String → Except String DB

/-- The `MarshalJSON` methods of the manifest's parts (generated code, missing), taken as parameters. -/
structure Marshal where
  Entity : v1.Entity → Except String String
  Projects : List v1.Project → Except String String
  Channels : List v1.Channel → Except String String
  Plans : List v1.Plan → Except String String
  History : List v1.History → Except String String

structure Core where
  q : Queries
  marshal : Marshal

/-- An id not used by any row. -/
def nextID (rows : List Row) : Int :=
  rows.foldl (fun acc r => max acc (r.ID + 1)) 1

/-- Modelled from the spec: the statement `upsert-manifest` (queries.sql is missing), "insert-or-update keyed by url": a row with the same url is overwritten with the
arguments, status included, and keeps its id; otherwise a row is added. The statement fails,
changing nothing, when the connection is down. -/
def upsertManifestStmt (db : DB) (a : UpsertArgs) : Except String DB :=
  if db.up then
    if db.rows.any (fun r => r.URL == a.URL) then
      Except.ok { db with rows := db.rows.map (fun r =>
        if r.URL = a.URL then
          ⟨r.ID, a.Version, a.URL, a.Body, a.Entity, a.Projects, a.Channels, a.Plans, a.History,
            a.Meta, a.Status⟩
        else r) }
    else
      Except.ok { db with rows := db.rows ++
        [⟨nextID db.rows, a.Version, a.URL, a.Body, a.Entity, a.Projects, a.Channels, a.Plans,
          a.History, a.Meta, a.Status⟩] }
  else Except.error "connection down"

/-- Modelled from the spec: the statement `update-manifest-status(id, status)` (queries.sql is missing), "a direct status write" to the row of that id. The statement
fails, changing nothing, when the connection is down. -/
def updateManifestStatusStmt (db : DB) (id : Int) (status : String) : Except String DB :=
  if db.up then
    Except.ok { db with rows := db.rows.map (fun r =>
      if r.ID = id then { r with Status := status } else r) }
  else Except.error "connection down"

/-- The prepared statements of the store. -/
def storeQueries : Queries where
  UpsertManifest := upsertManifestStmt
  UpdateManifestStatus := updateManifestStatusStmt

/-- UpsertManifest upserts an entry into the database. The result is the manifest, the error
and the database after the call. -/
def UpsertManifest (d : Core) (m : v1.Manifest) (db : DB) : (v1.Manifest × Option String) × DB :=
  match d.marshal.Entity m.Entity with
  | Except.error err => ((m, some err), db)
  | Except.ok entity =>
  match d.marshal.Projects m.Projects with
  | Except.error err => ((m, some err), db)
  | Except.ok projects =>
  match d.marshal.Channels m.Funding.Channels with
  | Except.error err => ((m, some err), db)
  | Except.ok channels =>
  match d.marshal.Plans m.Funding.Plans with
  | Except.error err => ((m, some err), db)
  | Except.ok plans =>
  match d.marshal.History m.Funding.History with
  | Except.error err => ((m, some err), db)
  | Except.ok history =>
  match d.q.UpsertManifest db ⟨m.Version, m.URL, m.Body, entity, projects, channels, plans,
      history, "\x7b\x7d", ManifestStatusPending⟩ with
  | Except.error err => ((m, some err), db)
  | Except.ok db2 => ((m, none), db2)

/-- UpdateManifestStatus updates a manifest's status. The result is the error and the database
after the call. -/
def UpdateManifestStatus (d : Core) (id : Int) (status : String) (db : DB) : Option String × DB :=
  match d.q.UpdateManifestStatus db id status with
  | Except.error err => (some err, db)
  | Except.ok db2 => (none, db2)

/-- Every stored lifecycle status is one of pending, active, expiring, disabled. -/
def StatusInDomain (db : DB) : Prop :=
  ∀ r ∈ db.rows, r.Status ∈ ManifestStatuses

instance (db : DB) : Decidable (StatusInDomain db) := by
  unfold StatusInDomain; infer_instance

end core

/-! ## Worked inputs -/

namespace samples

open validations v1 core

/-- Sample answers of the `validations` checks: an https URL parses, an e-mail address has an
at sign, identifiers and tags are alphanumeric with dashes, nothing is attested. -/
def answers : Answers where
  parseURL := fun u =>
    if startsWithStr u "https://" then some ⟨"https", String.mk (u.data.drop 8), ""⟩ else none
  emailOK := fun e => e.data.contains '@'
  idOK := fun v => v.data.all (fun c => c.isAlphanum || c == '-')
  tagOK := fun v => v.data.all (fun c => c.isAlphanum || c == '-')
  attests := fun _ _ _ => false

/-- Sample allowed-value lists. -/
def pkg : Pkg where
  EntityTypes := ["individual", "group", "organisation", "other"]
  EntityRoles := ["owner", "steward", "maintainer", "contributor", "other"]
  PlanStatuses := ["active", "inactive"]
  PlanFrequencies := ["one-time", "weekly", "fortnightly", "monthly", "yearly", "other"]
  answers := answers

/-- Sample schema: the license table has the SPDX id MIT. -/
def schema : Schema where
  exactVersion := "v1.0.0"
  opt := ⟨[("MIT", "MIT License")], [("go", "Go")], [("USD", "US Dollar")],
    "/.well-known/funding-manifest-urls"⟩

/-- The parse of `https://example.com` under the sample answers. -/
def manifestURL : URL := ⟨"https", "example.com", ""⟩

def entity : Entity :=
  ⟨"other", "owner", "Jane", "jane@example.com", "", ⟨"https://example.com", false⟩⟩

def project : Project :=
  ⟨"portal", "A funding portal", ⟨"https://example.com", false⟩, ⟨"https://example.com", false⟩,
    "spdx:MIT", [], ["funding"]⟩

def paypal : Channel := ⟨"paypal", "other", "jane@example.com", ""⟩

/-- A plan that references the channel `paypal`. -/
def plan : Plan := ⟨"plan-1", "active", "Monthly", "", 10, "USD", "monthly", ["paypal"]⟩

/-- A plan that references the channel id `ghost`. -/
def ghostPlan : Plan := { plan with Channels := ["ghost"] }

def history : History := ⟨2020, 100, 50, ""⟩

/-- A manifest that passes every check. -/
def manifest : Manifest :=
  ⟨"v1.0.0", "https://example.com", "", entity, [], ⟨[paypal], [plan], [history]⟩⟩

/-- Scenario 1 of the spec: `plans[0].channels = ["ghost"]` with `channels = [{id: "paypal"}]`. -/
def ghostManifest : Manifest :=
  { manifest with Funding := ⟨[paypal], [ghostPlan], [history]⟩ }

/-- Two channels, at indices 0 and 1, with the id `paypal`. -/
def duplicateManifest : Manifest :=
  { manifest with Funding := ⟨[paypal, { paypal with Address := "second" }], [plan], [history]⟩ }

/-- A manifest whose project 0 has an empty name and whose plan 0 has a negative amount. -/
def badProjectAndPlan : Manifest :=
  { manifest with
    Projects := [{ project with Name := "" }]
    Funding := ⟨[paypal], [{ plan with Amount := -1 }], [history]⟩ }

/-- Marshalling that never fails (the JSON text is not looked at). -/
def marshal : Marshal where
  Entity := fun _ => Except.ok "entity"
  Projects := fun _ => Except.ok "projects"
  Channels := fun _ => Except.ok "channels"
  Plans := fun _ => Except.ok "plans"
  History := fun _ => Except.ok "history"

def store : Core := ⟨storeQueries, marshal⟩

/-- A database with one active manifest, of id 1. -/
def db : DB :=
  ⟨true, [⟨1, "v1.0.0", "https://example.com", "", "entity", "projects", "channels", "plans",
    "history", "\x7b\x7d", "active"⟩]⟩

end samples

/-! ## Lemmas on the checks and the loops -/

namespace v1

open validations

theorem InRange_eq_none_iff {α : Type} [LinearOrder α] (tag : Tag) (val lo hi : α) :
    InRange tag val lo hi = none ↔ lo ≤ val ∧ val ≤ hi := by
  unfold InRange
  by_cases h : val < lo ∨ hi < val
  · simp only [h, if_true]
    constructor
    · intro h'; cases h'
    · rintro ⟨h1, h2⟩
      rcases h with h | h
      · exact absurd h1 (not_le.mpr h)
      · exact absurd h2 (not_le.mpr h)
  · simp only [h, if_false, true_iff]
    push_neg at h
    exact h

theorem len_nonneg (s : String) : 0 ≤ len s := by
  unfold len; exact Int.ofNat_nonneg _

theorem firstError_eq_none_iff (l : List (Option VError)) :
    firstError l = none ↔ ∀ c ∈ l, c = none := by
  induction l with
  | nil => simp [firstError]
  | cons c rest ih =>
    cases c with
    | none => simp [firstError, ih]
    | some e => simp [firstError]

theorem firstError_append_of_none (a b : List (Option VError)) (h : firstError a = none) :
    firstError (a ++ b) = firstError b := by
  induction a with
  | nil => rfl
  | cons c rest ih =>
    cases c with
    | none => simp only [firstError] at h; simpa [firstError] using ih h
    | some e => simp [firstError] at h

theorem firstError_append_of_some (a b : List (Option VError)) (e : VError)
    (h : firstError a = some e) : firstError (a ++ b) = some e := by
  induction a with
  | nil => simp [firstError] at h
  | cons c rest ih =>
    cases c with
    | none => simp only [firstError] at h; simpa [firstError] using ih h
    | some e2 => simpa [firstError] using h

theorem firstError_append (a b : List (Option VError)) :
    firstError (a ++ b) = match firstError a with
      | some e => some e
      | none => firstError b := by
  cases h : firstError a with
  | none => simpa using firstError_append_of_none a b h
  | some e => simpa using firstError_append_of_some a b e h

/-- A range loop returns the first error of its body over the indexed elements. -/
theorem rangeLoop_eq_firstError {α : Type} (body : α → Nat → Option VError) (n : Nat)
    (xs : List α) :
    rangeLoop body n xs = firstError ((xs.enumFrom n).map (fun x => body x.2 x.1)) := by
  induction xs generalizing n with
  | nil => rfl
  | cons o rest ih =>
    simp only [rangeLoop, List.enumFrom_cons, List.map_cons]
    cases h : body o n with
    | none => simpa [firstError] using ih (n + 1)
    | some e => simp [firstError]

theorem rangeLoop_eq_none_iff {α : Type} (body : α → Nat → Option VError) (n : Nat)
    (xs : List α) :
    rangeLoop body n xs = none ↔ ∀ x ∈ xs.enumFrom n, body x.2 x.1 = none := by
  rw [rangeLoop_eq_firstError, firstError_eq_none_iff]
  constructor
  · intro h x hx
    exact h _ (List.mem_map.mpr ⟨x, hx, rfl⟩)
  · intro h c hc
    obtain ⟨x, hx, rfl⟩ := List.mem_map.mp hc
    exact h x hx

/-- A range loop returns the error of the first element whose body fails. -/
theorem rangeLoop_first_failure {α : Type} (body : α → Nat → Option VError) (n i : Nat)
    (xs : List α) (o : α) (e : VError) (hget : xs.get? i = some o)
    (hbefore : ∀ x ∈ (xs.enumFrom n).take i, body x.2 x.1 = none)
    (hfail : body o (n + i) = some e) : rangeLoop body n xs = some e := by
  induction xs generalizing n i with
  | nil => simp at hget
  | cons y rest ih =>
    cases i with
    | zero =>
      simp only [List.get?_cons_zero, Option.some.injEq] at hget
      subst hget
      simp only [Nat.add_zero] at hfail
      simp [rangeLoop, hfail]
    | succ j =>
      simp only [List.get?_cons_succ] at hget
      simp only [List.enumFrom_cons, List.take_succ_cons, List.mem_cons, forall_eq_or_imp]
        at hbefore
      simp only [rangeLoop, hbefore.1]
      apply ih (n + 1) j hget hbefore.2
      rw [← hfail]; congr 1; omega

theorem planChannelsLoop_congr (n : Nat) (ids1 ids2 : List String)
    (h : ∀ x, x ∈ ids1 ↔ x ∈ ids2) (chs : List String) :
    planChannelsLoop n ids1 chs = planChannelsLoop n ids2 chs := by
  induction chs with
  | nil => rfl
  | cons ch rest ih => simp only [planChannelsLoop, h ch, ih]

/-- ValidatePlan looks at the channel id set through membership only. -/
theorem ValidatePlan_congr (p : Pkg) (s : Schema) (o : Plan) (n : Nat) (ids1 ids2 : List String)
    (h : ∀ x, x ∈ ids1 ↔ x ∈ ids2) :
    ValidatePlan p s o n ids1 = ValidatePlan p s o n ids2 := by
  unfold ValidatePlan
  rw [planChannelsLoop_congr n ids1 ids2 h]

theorem planChannelsLoop_eq_none_iff (n : Nat) (ids chs : List String) :
    planChannelsLoop n ids chs = none ↔ ∀ ch ∈ chs, ch ∈ ids := by
  induction chs with
  | nil => simp [planChannelsLoop]
  | cons ch rest ih =>
    by_cases hc : ch ∈ ids
    · simp [planChannelsLoop, hc, ih]
    · simp [planChannelsLoop, hc]

theorem planChannelsLoop_eq_some (n : Nat) (ids chs : List String) (e : VError)
    (h : planChannelsLoop n ids chs = some e) :
    e = ⟨ErrKind.crossReferenceMissing, Tag.idx "plans" n "frequency"⟩ := by
  induction chs with
  | nil => simp [planChannelsLoop] at h
  | cons ch rest ih =>
    by_cases hc : ch ∈ ids
    · simp only [planChannelsLoop, hc, if_true] at h; exact ih h
    · simp only [planChannelsLoop, hc, if_false] at h; exact (Option.some.inj h).symm

/-- The channels loop fails with the first channel error. -/
theorem channelsLoop_error (p : Pkg) (s : Schema) (n : Nat) (cs : List Channel)
    (ids : List String) (e : VError)
    (h : rangeLoop (fun o k => ValidateChannel p s o k) n cs = some e) :
    channelsLoop p s n cs ids = Except.error e := by
  induction cs generalizing n ids with
  | nil => simp [rangeLoop] at h
  | cons o rest ih =>
    simp only [rangeLoop] at h
    simp only [channelsLoop]
    cases hc : ValidateChannel p s o n with
    | some e2 => simp only [hc] at h; simp [Option.some.inj h]
    | none => simp only [hc] at h; exact ih (n + 1) _ h

/-- When no channel fails, the channels loop returns a set whose members are the ids it
started with and the ids of the channels. -/
theorem channelsLoop_ok (p : Pkg) (s : Schema) (n : Nat) (cs : List Channel)
    (ids : List String)
    (h : rangeLoop (fun o k => ValidateChannel p s o k) n cs = none) :
    ∃ out, channelsLoop p s n cs ids = Except.ok out ∧
      ∀ x, x ∈ out ↔ x ∈ ids ∨ x ∈ cs.map (fun c => c.ID) := by
  induction cs generalizing n ids with
  | nil => exact ⟨ids, rfl, by simp⟩
  | cons o rest ih =>
    simp only [rangeLoop] at h
    cases hc : ValidateChannel p s o n with
    | some e2 => simp [hc] at h
    | none =>
      simp only [hc] at h
      obtain ⟨out, hout, hmem⟩ := ih (n + 1) (ids.insert o.ID) h
      refine ⟨out, by simp only [channelsLoop, hc]; exact hout, ?_⟩
      intro x
      rw [hmem x]
      simp only [List.mem_insert_iff, List.map_cons, List.mem_cons]
      tauto

/-- The error of Validate is the first error of the documented sequence of checks. -/
theorem Validate_snd_eq_firstError (p : Pkg) (s : Schema) (m : Manifest) :
    (Validate p s m).2 = firstError (checkSequence p s m) := by
  unfold Validate checkSequence
  cases hurl : IsURL p.answers (Tag.plain "manifest URL") m.URL 1024 with
  | error err => simp [firstError]
  | ok mURL =>
    have hP := rangeLoop_eq_firstError (fun o n => ValidateProject p s o n mURL) 0 m.Projects
    have hC := rangeLoop_eq_firstError (fun o n => ValidateChannel p s o n) 0 m.Funding.Channels
    have hH := rangeLoop_eq_firstError (fun o n => ValidateHistory p s o n) 0 m.Funding.History
    have hL := rangeLoop_eq_firstError
      (fun o n => ValidatePlan p s o n (m.Funding.Channels.map (fun c => c.ID))) 0 m.Funding.Plans
    have h0 : ∀ c : Option VError, firstError [none, c] = c := by
      intro c; cases c <;> rfl
    simp only [List.enum] at *
    rw [firstError_append, firstError_append, firstError_append, firstError_append, h0,
      ← hP, ← hC, ← hH, ← hL]
    cases hE : ValidateEntity p s m.Entity mURL with
    | some e => rfl
    | none =>
      simp only []
      cases hPr : rangeLoop (fun o n => ValidateProject p s o n mURL) 0 m.Projects with
      | some e => rfl
      | none =>
        simp only []
        cases hCh : rangeLoop (fun o n => ValidateChannel p s o n) 0 m.Funding.Channels with
        | some e => simp only [channelsLoop_error p s 0 _ [] e hCh]
        | none =>
          obtain ⟨out, hout, hmem⟩ := channelsLoop_ok p s 0 m.Funding.Channels [] hCh
          have hfun : (fun (o : Plan) (n : Nat) => ValidatePlan p s o n out)
              = (fun o n => ValidatePlan p s o n (m.Funding.Channels.map (fun c => c.ID))) := by
            funext o n
            apply ValidatePlan_congr
            intro x
            rw [hmem x]
            simp
          simp only [hout, hfun]
          cases hPl : rangeLoop
              (fun o n => ValidatePlan p s o n (m.Funding.Channels.map (fun c => c.ID))) 0
              m.Funding.Plans with
          | some e => rfl
          | none =>
            simp only []
            cases hHi : rangeLoop (fun o n => ValidateHistory p s o n) 0 m.Funding.History with
            | some e => rfl
            | none => rfl

/-- Validate returns the manifest it was given, on every path. -/
theorem Validate_fst (p : Pkg) (s : Schema) (m : Manifest) : (Validate p s m).1 = m := by
  unfold Validate
  repeat' split
  all_goals rfl

/-- Validate accepts a manifest exactly when the URL check, the entity, and every project,
channel, plan (against the ids of all channels) and history entry pass. -/
theorem Validate_accepts_iff (p : Pkg) (s : Schema) (m : Manifest) :
    (Validate p s m).2 = none ↔
      ∃ mURL, IsURL p.answers (Tag.plain "manifest URL") m.URL 1024 = Except.ok mURL ∧
        ValidateEntity p s m.Entity mURL = none ∧
        rangeLoop (fun o n => ValidateProject p s o n mURL) 0 m.Projects = none ∧
        rangeLoop (fun o n => ValidateChannel p s o n) 0 m.Funding.Channels = none ∧
        rangeLoop (fun o n => ValidatePlan p s o n (m.Funding.Channels.map (fun c => c.ID))) 0
          m.Funding.Plans = none ∧
        rangeLoop (fun o n => ValidateHistory p s o n) 0 m.Funding.History = none := by
  rw [Validate_snd_eq_firstError]
  unfold checkSequence
  cases hurl : IsURL p.answers (Tag.plain "manifest URL") m.URL 1024 with
  | error err => simp [firstError]
  | ok mURL =>
    have h0 : ∀ c : Option VError, firstError [none, c] = c := by
      intro c; cases c <;> rfl
    simp only [List.enum]
    rw [firstError_append, firstError_append, firstError_append, firstError_append, h0,
      ← rangeLoop_eq_firstError (fun o n => ValidateProject p s o n mURL),
      ← rangeLoop_eq_firstError (fun o n => ValidateChannel p s o n),
      ← rangeLoop_eq_firstError (fun o n => ValidateHistory p s o n),
      ← rangeLoop_eq_firstError
        (fun o n => ValidatePlan p s o n (m.Funding.Channels.map (fun c => c.ID)))]
    simp only [Except.ok.injEq, exists_eq_left']
    cases ValidateEntity p s m.Entity mURL <;>
    cases rangeLoop (fun o n => ValidateProject p s o n mURL) 0 m.Projects <;>
    cases rangeLoop (fun o n => ValidateChannel p s o n) 0 m.Funding.Channels <;>
    cases rangeLoop (fun o n => ValidatePlan p s o n (m.Funding.Channels.map (fun c => c.ID))) 0
      m.Funding.Plans <;>
    cases rangeLoop (fun o n => ValidateHistory p s o n) 0 m.Funding.History <;> simp

/-- When a range loop passes, the body passed on every element, at some index. -/
theorem rangeLoop_none_mem {α : Type} (body : α → Nat → Option VError) (n : Nat) (xs : List α)
    (h : rangeLoop body n xs = none) (o : α) (ho : o ∈ xs) : ∃ i, body o i = none := by
  induction xs generalizing n with
  | nil => cases ho
  | cons y rest ih =>
    simp only [rangeLoop] at h
    cases hy : body y n with
    | some e => simp [hy] at h
    | none =>
      simp only [hy] at h
      rcases List.mem_cons.mp ho with rfl | hmem
      · exact ⟨n, hy⟩
      · exact ih (n + 1) h hmem

/-- The checks of ValidateEntity, in order. -/
theorem ValidateEntity_eq_firstError (p : Pkg) (s : Schema) (o : Entity) (manifest : URL) :
    ValidateEntity p s o manifest = firstError
      [InList (Tag.plain "entity.type") o.Type_ p.EntityTypes,
       InList (Tag.plain "entity.role") o.Type_ p.EntityRoles,
       InRange (Tag.plain "entity.name") (len o.Name) 2 128,
       IsEmail p.answers (Tag.plain "entity.email") o.Email 128,
       InRange (Tag.plain "entity.telephone") (len o.Telephone) 0 24,
       WellKnownURL p.answers (Tag.plain "entity.webpageUrl") manifest o.WebpageURL.URL
         o.WebpageURL.WellKnown s.opt.WellKnownPath 1024] := by
  unfold ValidateEntity
  generalize InList (Tag.plain "entity.type") o.Type_ p.EntityTypes = a
  generalize InList (Tag.plain "entity.role") o.Type_ p.EntityRoles = b
  generalize InRange (Tag.plain "entity.name") (len o.Name) 2 128 = c
  generalize IsEmail p.answers (Tag.plain "entity.email") o.Email 128 = d
  generalize InRange (Tag.plain "entity.telephone") (len o.Telephone) 0 24 = e
  generalize WellKnownURL p.answers (Tag.plain "entity.webpageUrl") manifest o.WebpageURL.URL
    o.WebpageURL.WellKnown s.opt.WellKnownPath 1024 = f
  cases a <;> try rfl
  cases b <;> try rfl
  cases c <;> try rfl
  cases d <;> try rfl
  cases e <;> try rfl
  cases f <;> rfl

/-- The checks of ValidateChannel, in order. -/
theorem ValidateChannel_eq_firstError (p : Pkg) (s : Schema) (o : Channel) (n : Nat) :
    ValidateChannel p s o n = firstError
      [IsID p.answers (Tag.idx "channels" n "id") o.ID 3 32,
       InList (Tag.idx "channels" n "type") o.Type_ p.EntityTypes,
       InRange (Tag.idx "channels" n "address") (len o.Address) 0 128,
       InRange (Tag.idx "channels" n "description") (len o.Description) 0 1024] := by
  unfold ValidateChannel
  generalize IsID p.answers (Tag.idx "channels" n "id") o.ID 3 32 = a
  generalize InList (Tag.idx "channels" n "type") o.Type_ p.EntityTypes = b
  generalize InRange (Tag.idx "channels" n "address") (len o.Address) 0 128 = c
  generalize InRange (Tag.idx "channels" n "description") (len o.Description) 0 1024 = d
  cases a <;> try rfl
  cases b <;> try rfl
  cases c <;> try rfl
  cases d <;> rfl

/-- The checks of ValidatePlan, in order. -/
theorem ValidatePlan_eq_firstError (p : Pkg) (s : Schema) (o : Plan) (n : Nat)
    (channelIDs : List String) :
    ValidatePlan p s o n channelIDs = firstError
      [IsID p.answers (Tag.idx "plans" n "id") o.ID 3 32,
       InList (Tag.idx "plans" n "status") o.Status p.PlanStatuses,
       InRange (Tag.idx "plans" n "name") (len o.Name) 3 128,
       InRange (Tag.idx "plans" n "description") (len o.Description) 0 1024,
       InRange (Tag.idx "plans" n "amount") o.Amount 0 1000000000,
       InMap (Tag.idx "plans" n "currency") "currencies list" o.Currency s.opt.Currencies,
       InList (Tag.idx "plans" n "frequency") o.Frequency p.PlanFrequencies,
       planChannelsLoop n channelIDs o.Channels] := by
  unfold ValidatePlan
  generalize IsID p.answers (Tag.idx "plans" n "id") o.ID 3 32 = a
  generalize InList (Tag.idx "plans" n "status") o.Status p.PlanStatuses = b
  generalize InRange (Tag.idx "plans" n "name") (len o.Name) 3 128 = c
  generalize InRange (Tag.idx "plans" n "description") (len o.Description) 0 1024 = d
  generalize InRange (Tag.idx "plans" n "amount") o.Amount 0 1000000000 = e
  generalize InMap (Tag.idx "plans" n "currency") "currencies list" o.Currency
    s.opt.Currencies = f
  generalize InList (Tag.idx "plans" n "frequency") o.Frequency p.PlanFrequencies = g
  generalize planChannelsLoop n channelIDs o.Channels = h
  cases a <;> try rfl
  cases b <;> try rfl
  cases c <;> try rfl
  cases d <;> try rfl
  cases e <;> try rfl
  cases f <;> try rfl
  cases g <;> try rfl
  cases h <;> rfl

/-- The checks of ValidateHistory, in order, with the field paths they are given. -/
theorem ValidateHistory_eq_firstError (p : Pkg) (s : Schema) (o : History) (n : Nat) :
    ValidateHistory p s o n = firstError
      [InRange (Tag.idx "history" n "year") o.Year 1970 2075,
       InRange (Tag.idx "plans" n "income") o.Income 0 1000000000,
       InRange (Tag.idx "plans" n "expenses") o.Expenses 0 1000000000,
       InRange (Tag.idx "projects" n "description") (len o.Description) 0 1024] := by
  unfold ValidateHistory
  generalize InRange (Tag.idx "history" n "year") o.Year 1970 2075 = a
  generalize InRange (Tag.idx "plans" n "income") o.Income 0 1000000000 = b
  generalize InRange (Tag.idx "plans" n "expenses") o.Expenses 0 1000000000 = c
  generalize InRange (Tag.idx "projects" n "description") (len o.Description) 0 1024 = d
  cases a <;> try rfl
  cases b <;> try rfl
  cases c <;> try rfl
  cases d <;> rfl

theorem InList_eq_none_iff (tag : Tag) (val : String) (vals : List String) :
    InList tag val vals = none ↔ val ∈ vals := by
  unfold InList
  by_cases h : val ∈ vals <;> simp [h]

theorem IsID_eq_none_iff (a : Answers) (tag : Tag) (val : String) (lo hi : Int) :
    IsID a tag val lo hi = none ↔ (lo ≤ len val ∧ len val ≤ hi) ∧ a.idOK val = true := by
  unfold IsID
  cases h : InRange tag (len val) lo hi with
  | some e =>
    have hne : ¬ (lo ≤ len val ∧ len val ≤ hi) := by
      intro hr
      rw [(InRange_eq_none_iff tag (len val) lo hi).mpr hr] at h
      cases h
    simp [hne]
  | none =>
    have hr := (InRange_eq_none_iff tag (len val) lo hi).mp h
    by_cases hok : a.idOK val = true <;> simp [hok, hr]

/-- Whether ValidateChannel passes does not depend on the index of the channel. -/
theorem ValidateChannel_eq_none_iff (p : Pkg) (s : Schema) (o : Channel) (n : Nat) :
    ValidateChannel p s o n = none ↔
      ((3 ≤ len o.ID ∧ len o.ID ≤ 32) ∧ p.answers.idOK o.ID = true)
      ∧ o.Type_ ∈ p.EntityTypes
      ∧ len o.Address ≤ 128
      ∧ len o.Description ≤ 1024 := by
  simp only [ValidateChannel_eq_firstError, firstError_eq_none_iff, List.mem_cons,
    List.mem_singleton, forall_eq_or_imp, forall_eq, IsID_eq_none_iff, InList_eq_none_iff,
    InRange_eq_none_iff, len_nonneg, true_and, List.not_mem_nil, false_imp_iff, implies_true,
    and_true]

theorem rangeLoop_append {α : Type} (body : α → Nat → Option VError) (n : Nat)
    (xs ys : List α) :
    rangeLoop body n (xs ++ ys) = match rangeLoop body n xs with
      | some e => some e
      | none => rangeLoop body (n + xs.length) ys := by
  induction xs generalizing n with
  | nil => simp [rangeLoop]
  | cons x rest ih =>
    have hlen : n + (rest.length + 1) = n + 1 + rest.length := by omega
    simp only [List.cons_append, rangeLoop, List.length_cons, hlen]
    cases body x n with
    | some e => rfl
    | none => exact ih (n + 1)

theorem channelsLoop_append (p : Pkg) (s : Schema) (n : Nat) (xs ys : List Channel)
    (ids : List String) :
    channelsLoop p s n (xs ++ ys) ids = match channelsLoop p s n xs ids with
      | Except.error e => Except.error e
      | Except.ok out => channelsLoop p s (n + xs.length) ys out := by
  induction xs generalizing n ids with
  | nil => simp [channelsLoop]
  | cons x rest ih =>
    have hlen : n + (rest.length + 1) = n + 1 + rest.length := by omega
    simp only [List.cons_append, channelsLoop, List.length_cons, hlen]
    cases ValidateChannel p s x n with
    | some e => rfl
    | none => exact ih (n + 1) _

/-! ## Properties of Validate -/

/-- C1: Validate is fail-fast in the documented order. The error it returns is the first error
of the sequence [manifest URL check, ValidateEntity, ValidateProject for every project in array
order, ValidateChannel for every channel in array order, ValidatePlan for every plan in array
order against the ids of all channels, ValidateHistory for every history entry in array order];
it returns no error exactly when every check of the sequence passes; and when the URL and the
entity pass and project `i` is the first project that fails, its error is the one returned,
whatever the plans are. -/
theorem Validate_fail_fast_in_documented_order (p : Pkg) (s : Schema) (m : Manifest) :
    (Validate p s m).2 = firstError (checkSequence p s m)
    ∧ ((Validate p s m).2 = none ↔ ∀ c ∈ checkSequence p s m, c = none)
    ∧ (∀ (mURL : URL) (i : Nat) (o : Project) (e : VError),
        IsURL p.answers (Tag.plain "manifest URL") m.URL 1024 = Except.ok mURL →
        ValidateEntity p s m.Entity mURL = none →
        m.Projects.get? i = some o →
        (∀ x ∈ m.Projects.enum.take i, ValidateProject p s x.2 x.1 mURL = none) →
        ValidateProject p s o i mURL = some e →
        (Validate p s m).2 = some e) := by
  refine ⟨Validate_snd_eq_firstError p s m, ?_, ?_⟩
  · rw [Validate_snd_eq_firstError, firstError_eq_none_iff]
  · intro mURL i o e hurl hE hget hbefore hfail
    have hloop : rangeLoop (fun o n => ValidateProject p s o n mURL) 0 m.Projects = some e := by
      apply rangeLoop_first_failure _ 0 i m.Projects o e hget
      · exact hbefore
      · simpa using hfail
    unfold Validate
    simp only [hurl, hE, hloop]

/-- C1, on a manifest whose project 0 has an empty name and whose plan 0 has a negative amount:
the plan alone would be reported under `plans[0].amount`, and Validate reports
`projects[0].name`. -/
theorem Validate_fail_fast_in_documented_order_witness :
    ValidatePlan samples.pkg samples.schema { samples.plan with Amount := -1 } 0 ["paypal"]
        = some ⟨ErrKind.rangeViolation, Tag.idx "plans" 0 "amount"⟩
    ∧ (Validate samples.pkg samples.schema samples.badProjectAndPlan).2
        = some ⟨ErrKind.rangeViolation, Tag.idx "projects" 0 "name"⟩ :=
  ⟨by decide,
   (Validate_fail_fast_in_documented_order samples.pkg samples.schema
      samples.badProjectAndPlan).2.2 samples.manifestURL 0 { samples.project with Name := "" }
      ⟨ErrKind.rangeViolation, Tag.idx "projects" 0 "name"⟩
      (by rfl) (by decide) (by decide) (by decide) (by decide)⟩

/-- C9: validation is idempotent. Validate returns the manifest it was given, unchanged, on
the accept path and on every error path, so that validating the returned manifest again gives
the same manifest, the same verdict and the same error. -/
theorem Validate_idempotent (p : Pkg) (s : Schema) (m : Manifest) :
    (Validate p s m).1 = m ∧ Validate p s (Validate p s m).1 = Validate p s m := by
  have h := Validate_fst p s m
  exact ⟨h, by rw [h]⟩

/-- C6: range limits are closed intervals that reject. Validate returns the manifest
unmodified, and when it accepts the manifest the length of `entity.name` is within [2,128], the
year of every history entry is within [1970,2075], the income and the expenses of every history
entry are within [0,1000000000] and the amount of every plan is within [0,1000000000]. -/
theorem Validate_accepts_only_within_ranges (p : Pkg) (s : Schema) (m : Manifest) :
    (Validate p s m).1 = m
    ∧ ((Validate p s m).2 = none →
        (2 ≤ len m.Entity.Name ∧ len m.Entity.Name ≤ 128)
        ∧ (∀ h ∈ m.Funding.History,
            (1970 ≤ h.Year ∧ h.Year ≤ 2075)
            ∧ (0 ≤ h.Income ∧ h.Income ≤ 1000000000)
            ∧ (0 ≤ h.Expenses ∧ h.Expenses ≤ 1000000000))
        ∧ (∀ pl ∈ m.Funding.Plans, 0 ≤ pl.Amount ∧ pl.Amount ≤ 1000000000)) := by
  refine ⟨Validate_fst p s m, ?_⟩
  intro hacc
  obtain ⟨mURL, -, hE, -, -, hPl, hHi⟩ := (Validate_accepts_iff p s m).mp hacc
  refine ⟨?_, ?_, ?_⟩
  · simp only [ValidateEntity_eq_firstError, firstError_eq_none_iff, List.mem_cons,
      List.mem_singleton, forall_eq_or_imp, forall_eq] at hE
    exact (InRange_eq_none_iff _ _ _ _).mp hE.2.2.1
  · intro h hh
    obtain ⟨i, hi⟩ := rangeLoop_none_mem _ 0 _ hHi h hh
    simp only [ValidateHistory_eq_firstError, firstError_eq_none_iff, List.mem_cons,
      List.mem_singleton, forall_eq_or_imp, forall_eq] at hi
    exact ⟨(InRange_eq_none_iff _ _ _ _).mp hi.1,
      (InRange_eq_none_iff _ _ _ _).mp hi.2.1,
      (InRange_eq_none_iff _ _ _ _).mp hi.2.2.1⟩
  · intro pl hpl
    obtain ⟨i, hi⟩ := rangeLoop_none_mem _ 0 _ hPl pl hpl
    simp only [ValidatePlan_eq_firstError, firstError_eq_none_iff, List.mem_cons,
      List.mem_singleton, forall_eq_or_imp, forall_eq] at hi
    exact (InRange_eq_none_iff _ _ _ _).mp hi.2.2.2.2.1

/-- C6, on a manifest that is accepted: its name, its plan and its history entry are within
the ranges. -/
theorem Validate_accepts_only_within_ranges_witness :
    (Validate samples.pkg samples.schema samples.manifest).2 = none
    ∧ (2 ≤ len samples.manifest.Entity.Name ∧ len samples.manifest.Entity.Name ≤ 128)
    ∧ (∀ h ∈ samples.manifest.Funding.History,
        (1970 ≤ h.Year ∧ h.Year ≤ 2075)
        ∧ (0 ≤ h.Income ∧ h.Income ≤ 1000000000)
        ∧ (0 ≤ h.Expenses ∧ h.Expenses ≤ 1000000000))
    ∧ (∀ pl ∈ samples.manifest.Funding.Plans, 0 ≤ pl.Amount ∧ pl.Amount ≤ 1000000000) :=
  ⟨by decide,
   (Validate_accepts_only_within_ranges samples.pkg samples.schema samples.manifest).2
      (by decide)⟩

/-- Scenario 2 of the spec: a manifest whose entity has the name `""`, of length 0 < 2, is
rejected under `entity.name` and returned as it was given. -/
theorem Validate_rejects_empty_entity_name :
    Validate samples.pkg samples.schema
        { samples.manifest with Entity := { samples.entity with Name := "" } }
      = ({ samples.manifest with Entity := { samples.entity with Name := "" } },
          some ⟨ErrKind.rangeViolation, Tag.plain "entity.name"⟩) := by
  rfl

/-- C2: dangling channel references are rejected at the right plan. If some plan references
a channel id that is not the id of any channel of the manifest, Validate returns an error; and
when the URL, the entity, every project, every channel and the plans before index `n` pass and
plan `n` passes its own field checks (it passes against its own channel list) but references
such an id, the error returned is the unknown channel id error of `plans[n]`. -/
theorem Validate_rejects_dangling_channel (p : Pkg) (s : Schema) (m : Manifest) :
    ((∃ pl ∈ m.Funding.Plans, ∃ ch ∈ pl.Channels,
        ch ∉ m.Funding.Channels.map (fun c => c.ID)) → (Validate p s m).2 ≠ none)
    ∧ (∀ (mURL : URL) (n : Nat) (pl : Plan),
        IsURL p.answers (Tag.plain "manifest URL") m.URL 1024 = Except.ok mURL →
        ValidateEntity p s m.Entity mURL = none →
        (∀ x ∈ m.Projects.enum, ValidateProject p s x.2 x.1 mURL = none) →
        (∀ x ∈ m.Funding.Channels.enum, ValidateChannel p s x.2 x.1 = none) →
        (∀ x ∈ m.Funding.Plans.enum.take n,
          ValidatePlan p s x.2 x.1 (m.Funding.Channels.map (fun c => c.ID)) = none) →
        m.Funding.Plans.get? n = some pl →
        ValidatePlan p s pl n pl.Channels = none →
        (∃ ch ∈ pl.Channels, ch ∉ m.Funding.Channels.map (fun c => c.ID)) →
        (Validate p s m).2
          = some ⟨ErrKind.crossReferenceMissing, Tag.idx "plans" n "frequency"⟩) := by
  constructor
  · rintro ⟨pl, hpl, ch, hch, hnot⟩ hacc
    obtain ⟨mURL, -, -, -, -, hPl, -⟩ := (Validate_accepts_iff p s m).mp hacc
    obtain ⟨i, hi⟩ := rangeLoop_none_mem _ 0 _ hPl pl hpl
    simp only [ValidatePlan_eq_firstError, firstError_eq_none_iff, List.mem_cons,
      List.mem_singleton, forall_eq_or_imp, forall_eq] at hi
    exact hnot ((planChannelsLoop_eq_none_iff _ _ _).mp hi.2.2.2.2.2.2.2.1 ch hch)
  · intro mURL n pl hurl hE hProj hChan hBefore hget hown hdangling
    have hP : rangeLoop (fun o n => ValidateProject p s o n mURL) 0 m.Projects = none :=
      (rangeLoop_eq_none_iff _ 0 _).mpr hProj
    have hC : rangeLoop (fun o n => ValidateChannel p s o n) 0 m.Funding.Channels = none :=
      (rangeLoop_eq_none_iff _ 0 _).mpr hChan
    obtain ⟨out, hout, hmem⟩ := channelsLoop_ok p s 0 m.Funding.Channels [] hC
    have hsame : ∀ x, x ∈ out ↔ x ∈ m.Funding.Channels.map (fun c => c.ID) := by
      intro x; rw [hmem x]; simp
    have hfail : ValidatePlan p s pl n out
        = some ⟨ErrKind.crossReferenceMissing, Tag.idx "plans" n "frequency"⟩ := by
      simp only [ValidatePlan_eq_firstError, firstError_eq_none_iff, List.mem_cons,
        List.mem_singleton, forall_eq_or_imp, forall_eq] at hown
      obtain ⟨h1, h2, h3, h4, h5, h6, h7, -⟩ := hown
      rw [ValidatePlan_eq_firstError, h1, h2, h3, h4, h5, h6, h7]
      simp only [firstError]
      cases hl : planChannelsLoop n out pl.Channels with
      | none =>
        obtain ⟨ch, hch, hnot⟩ := hdangling
        exact absurd ((hsame ch).mp ((planChannelsLoop_eq_none_iff _ _ _).mp hl ch hch)) hnot
      | some e => simp only [firstError]; rw [planChannelsLoop_eq_some n out pl.Channels e hl]
    have hL : rangeLoop (fun o n => ValidatePlan p s o n out) 0 m.Funding.Plans
        = some ⟨ErrKind.crossReferenceMissing, Tag.idx "plans" n "frequency"⟩ := by
      apply rangeLoop_first_failure _ 0 n m.Funding.Plans pl _ hget
      · intro x hx
        rw [ValidatePlan_congr p s x.2 x.1 out _ hsame]
        exact hBefore x hx
      · simpa using hfail
    unfold Validate
    simp only [hurl, hE, hP, hout, hL]

/-- C2, on scenario 1 of the spec: `plans[0].channels = ["ghost"]` with
`channels = [{id: "paypal"}]` is rejected at `plans[0]`. -/
theorem Validate_rejects_dangling_channel_witness :
    (Validate samples.pkg samples.schema samples.ghostManifest).2 ≠ none
    ∧ (Validate samples.pkg samples.schema samples.ghostManifest).2
        = some ⟨ErrKind.crossReferenceMissing, Tag.idx "plans" 0 "frequency"⟩ :=
  ⟨(Validate_rejects_dangling_channel samples.pkg samples.schema samples.ghostManifest).1
      ⟨samples.ghostPlan, by decide, "ghost", by decide, by decide⟩,
   (Validate_rejects_dangling_channel samples.pkg samples.schema samples.ghostManifest).2
      samples.manifestURL 0 samples.ghostPlan (by rfl) (by decide) (by decide) (by decide)
      (by decide) (by decide) (by decide) ⟨"ghost", by decide, by decide⟩⟩

/-- C3, as stated, fails: a manifest whose channels 0 and 1 both have the id `paypal` is
accepted. -/
theorem Validate_accepts_duplicate_channel_ids :
    samples.duplicateManifest.Funding.Channels.map (fun c => c.ID) = ["paypal", "paypal"]
    ∧ (Validate samples.pkg samples.schema samples.duplicateManifest).2 = none := by
  decide

/-- C3, amended: Validate makes no cross-channel check. Appending to an accepted manifest a
channel that passes its own checks and whose id is already the id of one of the manifest's
channels, so that two entries have the same id, gives a manifest that is accepted as well, and
the channel id set collected from it is the one collected before: the repeated id is one entry
of the set. -/
theorem Validate_accepts_repeated_channel (p : Pkg) (s : Schema) (m : Manifest) (c : Channel)
    (hid : c.ID ∈ m.Funding.Channels.map (fun x => x.ID))
    (hc : ValidateChannel p s c m.Funding.Channels.length = none)
    (hacc : (Validate p s m).2 = none) :
    (Validate p s
        { m with Funding := { m.Funding with Channels := m.Funding.Channels ++ [c] } }).2 = none
    ∧ channelsLoop p s 0 (m.Funding.Channels ++ [c]) []
        = channelsLoop p s 0 m.Funding.Channels [] := by
  obtain ⟨mURL, hurl, hE, hP, hC, hPl, hHi⟩ := (Validate_accepts_iff p s m).mp hacc
  have hcn : ∀ k, ValidateChannel p s c k = none := by
    intro k
    exact (ValidateChannel_eq_none_iff p s c k).mpr ((ValidateChannel_eq_none_iff p s c _).mp hc)
  constructor
  · rw [Validate_accepts_iff]
    refine ⟨mURL, hurl, hE, hP, ?_, ?_, hHi⟩
    · show rangeLoop (fun o n => ValidateChannel p s o n) 0 (m.Funding.Channels ++ [c]) = none
      rw [rangeLoop_append, hC]
      simp only [rangeLoop, hcn]
    · show rangeLoop (fun o n => ValidatePlan p s o n
          ((m.Funding.Channels ++ [c]).map (fun c => c.ID))) 0 m.Funding.Plans = none
      have hfun : (fun (o : Plan) (n : Nat) => ValidatePlan p s o n
            ((m.Funding.Channels ++ [c]).map (fun c => c.ID)))
          = (fun o n => ValidatePlan p s o n (m.Funding.Channels.map (fun c => c.ID))) := by
        funext o n
        apply ValidatePlan_congr
        intro x
        simp only [List.map_append, List.map_cons, List.map_nil, List.mem_append,
          List.mem_singleton]
        constructor
        · rintro (h | h)
          · exact h
          · rw [h]; exact hid
        · intro h; exact Or.inl h
      rw [hfun]; exact hPl
  · obtain ⟨out, hout, hmem⟩ := channelsLoop_ok p s 0 m.Funding.Channels [] hC
    have hin : c.ID ∈ out := (hmem c.ID).mpr (Or.inr hid)
    rw [channelsLoop_append, hout]
    simp only [channelsLoop, hcn, List.insert_of_mem hin]

/-- C3 amended, on the accepted sample manifest and a second channel of id `paypal` with
another address. -/
theorem Validate_accepts_repeated_channel_witness :
    (Validate samples.pkg samples.schema
        { samples.manifest with Funding :=
            { samples.manifest.Funding with
              Channels := samples.manifest.Funding.Channels
                ++ [{ samples.paypal with Address := "second" }] } }).2 = none
    ∧ channelsLoop samples.pkg samples.schema 0
          (samples.manifest.Funding.Channels ++ [{ samples.paypal with Address := "second" }]) []
        = channelsLoop samples.pkg samples.schema 0 samples.manifest.Funding.Channels [] :=
  Validate_accepts_repeated_channel samples.pkg samples.schema samples.manifest
    { samples.paypal with Address := "second" } (by decide) (by decide) (by decide)

/-! ## Properties of the per-section validators -/

/-- C10: a funding channel's type is validated against the entity-type list. ValidateChannel
returns no error exactly when the id is a well-formed identifier of length 3..32, the type is a
member of `EntityTypes`, the address is at most 128 long and the description is at most 1024
long; the checks run in that order and the first one that fails is reported under
`channels[n].id`, `channels[n].type`, `channels[n].address` or `channels[n].description`. -/
theorem ValidateChannel_checks_in_order (p : Pkg) (s : Schema) (o : Channel) (n : Nat) :
    (ValidateChannel p s o n = none ↔
      ((3 ≤ len o.ID ∧ len o.ID ≤ 32) ∧ p.answers.idOK o.ID = true)
      ∧ o.Type_ ∈ p.EntityTypes
      ∧ len o.Address ≤ 128
      ∧ len o.Description ≤ 1024)
    ∧ ValidateChannel p s o n =
        (if len o.ID < 3 ∨ 32 < len o.ID then
          some ⟨ErrKind.rangeViolation, Tag.idx "channels" n "id"⟩
        else if p.answers.idOK o.ID = false then
          some ⟨ErrKind.malformed, Tag.idx "channels" n "id"⟩
        else if o.Type_ ∉ p.EntityTypes then
          some ⟨ErrKind.enumMismatch, Tag.idx "channels" n "type"⟩
        else if 128 < len o.Address then
          some ⟨ErrKind.rangeViolation, Tag.idx "channels" n "address"⟩
        else if 1024 < len o.Description then
          some ⟨ErrKind.rangeViolation, Tag.idx "channels" n "description"⟩
        else none) := by
  refine ⟨ValidateChannel_eq_none_iff p s o n, ?_⟩
  have ha := len_nonneg o.Address
  have hd := len_nonneg o.Description
  unfold ValidateChannel IsID InList InRange
  by_cases h1 : len o.ID < 3 ∨ 32 < len o.ID
  · simp only [h1, if_true]
  · by_cases h2 : p.answers.idOK o.ID = false
    · simp [h1, h2]
    · by_cases h3 : o.Type_ ∈ p.EntityTypes
      · by_cases h4 : 128 < len o.Address
        · simp [h1, h2, h3, h4]
        · by_cases h5 : 1024 < len o.Description
          · simp [h1, h2, h3, h4, h5, not_lt.mpr ha]
          · simp [h1, h2, h3, h4, h5, not_lt.mpr ha, not_lt.mpr hd]
      · simp [h1, h2, h3]

/-- C7: the field paths ValidateHistory reports. A year outside [1970,2075] is reported under
`history[n].year`, but an income outside [0,1000000000] is reported under `plans[n].income`,
expenses outside the range under `plans[n].expenses`, and a description longer than 1024 under
`projects[n].description`; so a history entry of index 0 with income -1 gets the path
`plans[0].income`, from ValidateHistory and from Validate. -/
theorem ValidateHistory_reports_plan_and_project_paths :
    (∀ (p : Pkg) (s : Schema) (o : History) (n : Nat),
      ValidateHistory p s o n =
        (if o.Year < 1970 ∨ 2075 < o.Year then
          some ⟨ErrKind.rangeViolation, Tag.idx "history" n "year"⟩
        else if o.Income < 0 ∨ 1000000000 < o.Income then
          some ⟨ErrKind.rangeViolation, Tag.idx "plans" n "income"⟩
        else if o.Expenses < 0 ∨ 1000000000 < o.Expenses then
          some ⟨ErrKind.rangeViolation, Tag.idx "plans" n "expenses"⟩
        else if 1024 < len o.Description then
          some ⟨ErrKind.rangeViolation, Tag.idx "projects" n "description"⟩
        else none))
    ∧ ValidateHistory samples.pkg samples.schema ⟨2020, -1, 0, ""⟩ 0
        = some ⟨ErrKind.rangeViolation, Tag.idx "plans" 0 "income"⟩
    ∧ (Validate samples.pkg samples.schema
          { samples.manifest with Funding :=
              { samples.manifest.Funding with History := [⟨2020, -1, 0, ""⟩] } }).2
        = some ⟨ErrKind.rangeViolation, Tag.idx "plans" 0 "income"⟩ := by
  refine ⟨?_, by decide, by decide⟩
  intro p s o n
  have hd := len_nonneg o.Description
  unfold ValidateHistory InRange
  by_cases h1 : o.Year < 1970 ∨ 2075 < o.Year
  · simp only [h1, if_true]
  · by_cases h2 : o.Income < 0 ∨ 1000000000 < o.Income
    · simp only [h1, h2, if_true, if_false]
    · by_cases h3 : o.Expenses < 0 ∨ 1000000000 < o.Expenses
      · simp only [h1, h2, h3, if_true, if_false]
      · by_cases h4 : 1024 < len o.Description
        · simp [h1, h2, h3, h4]
        · simp [h1, h2, h3, h4, not_lt.mpr hd]

/-- C4: the value ValidateEntity tests under the tag `entity.role` is the entity's type. The
result never depends on the role field; with the sample lists, the entity of type `individual`
and role `owner` (both allowed) is rejected under `entity.role`, and the entity of type `other`
with the role `no-such-role` is accepted. -/
theorem ValidateEntity_tests_type_under_role_tag :
    (∀ (p : Pkg) (s : Schema) (o : Entity) (r : String) (manifest : URL),
      ValidateEntity p s { o with Role := r } manifest = ValidateEntity p s o manifest)
    ∧ ("individual" ∈ samples.pkg.EntityTypes ∧ "owner" ∈ samples.pkg.EntityRoles
        ∧ ValidateEntity samples.pkg samples.schema
            { samples.entity with Type_ := "individual", Role := "owner" } samples.manifestURL
          = some ⟨ErrKind.enumMismatch, Tag.plain "entity.role"⟩)
    ∧ ("no-such-role" ∉ samples.pkg.EntityRoles
        ∧ ValidateEntity samples.pkg samples.schema
            { samples.entity with Type_ := "other", Role := "no-such-role" } samples.manifestURL
          = none) := by
  refine ⟨?_, by decide, by decide⟩
  intro p s o r manifest
  rfl

/-- C5: the license is looked up with its `spdx:` namespace still on it. With a license table
that has the SPDX id `MIT`, the project whose license is `spdx:MIT` and whose other fields are
valid is rejected with a lookup error on `projects[0].license`; the same project is accepted
when the table has the key `spdx:MIT` instead. -/
theorem ValidateProject_looks_up_license_with_namespace :
    samples.schema.opt.Licenses = [("MIT", "MIT License")]
    ∧ samples.project.License = "spdx:MIT"
    ∧ ValidateProject samples.pkg samples.schema samples.project 0 samples.manifestURL
        = some ⟨ErrKind.lookupMiss, Tag.idx "projects" 0 "license"⟩
    ∧ ValidateProject samples.pkg samples.schema { samples.project with License := "MIT" } 0
        samples.manifestURL = none
    ∧ ValidateProject samples.pkg
        { samples.schema with opt :=
            { samples.schema.opt with Licenses := [("spdx:MIT", "MIT License")] } }
        samples.project 0 samples.manifestURL = none := by
  decide

end v1

/-! ## Properties of the manifest store -/

namespace core

theorem pending_mem_ManifestStatuses : ManifestStatusPending ∈ ManifestStatuses := by
  simp [ManifestStatuses]

/-- The upsert statement keeps every stored status in the domain when it is given a status of
the domain. -/
theorem upsertManifestStmt_preserves (db db2 : DB) (a : UpsertArgs)
    (hinv : StatusInDomain db) (hst : a.Status ∈ ManifestStatuses)
    (h : upsertManifestStmt db a = Except.ok db2) : StatusInDomain db2 := by
  unfold upsertManifestStmt at h
  split at h
  · split at h
    · cases h
      intro r hr
      simp only [List.mem_map] at hr
      obtain ⟨r0, hr0, rfl⟩ := hr
      by_cases hu : r0.URL = a.URL
      · simp only [hu, if_true]; exact hst
      · simp only [hu, if_false]; exact hinv r0 hr0
    · cases h
      intro r hr
      simp only [List.mem_append, List.mem_singleton] at hr
      rcases hr with hr | rfl
      · exact hinv r hr
      · exact hst
  · cases h

/-- The status update statement keeps every stored status in the domain when it is given a
status of the domain. -/
theorem updateManifestStatusStmt_preserves (db db2 : DB) (id : Int) (status : String)
    (hinv : StatusInDomain db) (hst : status ∈ ManifestStatuses)
    (h : updateManifestStatusStmt db id status = Except.ok db2) : StatusInDomain db2 := by
  unfold updateManifestStatusStmt at h
  split at h
  · cases h
    intro r hr
    simp only [List.mem_map] at hr
    obtain ⟨r0, hr0, rfl⟩ := hr
    by_cases hu : r0.ID = id
    · simp only [hu, if_true]; exact hst
    · simp only [hu, if_false]; exact hinv r0 hr0
  · cases h

/-- C8, as stated, fails for UpdateManifestStatus: on a store whose statuses are all in the
domain, `UpdateManifestStatus(1, "bogus")` succeeds and leaves the status `bogus` stored. -/
theorem UpdateManifestStatus_stores_any_status :
    StatusInDomain samples.db
    ∧ (UpdateManifestStatus samples.store 1 "bogus" samples.db).1 = none
    ∧ ¬ StatusInDomain (UpdateManifestStatus samples.store 1 "bogus" samples.db).2 := by
  decide

/-- C8, amended: when every stored status is one of pending, active, expiring, disabled, the
same holds after UpsertManifest for every manifest (it writes pending), and after
UpdateManifestStatus for every id and every status that is one of the four; and
UpdateManifestStatus on a connected store writes the status it is given, whatever it is, to
the row of that id. -/
theorem store_status_stays_in_domain (mar : Marshal) (db : DB) (hinv : StatusInDomain db) :
    (∀ m : v1.Manifest, StatusInDomain (UpsertManifest ⟨storeQueries, mar⟩ m db).2)
    ∧ (∀ (id : Int) (status : String), status ∈ ManifestStatuses →
        StatusInDomain (UpdateManifestStatus ⟨storeQueries, mar⟩ id status db).2)
    ∧ (∀ (id : Int) (status : String), db.up = true →
        ∀ r ∈ db.rows, r.ID = id →
          { r with Status := status } ∈
            (UpdateManifestStatus ⟨storeQueries, mar⟩ id status db).2.rows) := by
  refine ⟨?_, ?_, ?_⟩
  · intro m
    unfold UpsertManifest
    repeat' split
    all_goals first
      | exact hinv
      | (rename_i hq
         exact upsertManifestStmt_preserves db _ _ hinv pending_mem_ManifestStatuses hq)
  · intro id status hst
    unfold UpdateManifestStatus
    split
    · exact hinv
    · rename_i hq
      exact updateManifestStatusStmt_preserves db _ id status hinv hst hq
  · intro id status hup r hr hid
    simp only [UpdateManifestStatus, storeQueries, updateManifestStatusStmt, hup, if_true,
      List.mem_map]
    exact ⟨r, hr, by simp [hid]⟩

/-- C8 amended, on the sample store: after an upsert of the sample manifest, and after
`UpdateManifestStatus(1, "disabled")`, every stored status is in the domain, and the row of id
1 has the status `disabled`. -/
theorem store_status_stays_in_domain_witness :
    StatusInDomain (UpsertManifest samples.store samples.manifest samples.db).2
    ∧ StatusInDomain (UpdateManifestStatus samples.store 1 "disabled" samples.db).2
    ∧ (⟨1, "v1.0.0", "https://example.com", "", "entity", "projects", "channels", "plans",
          "history", "\x7b\x7d", "disabled"⟩ : Row) ∈
        (UpdateManifestStatus samples.store 1 "disabled" samples.db).2.rows :=
  ⟨(store_status_stays_in_domain samples.marshal samples.db (by decide)).1 samples.manifest,
   (store_status_stays_in_domain samples.marshal samples.db (by decide)).2.1 1 "disabled"
      (by decide),
   (store_status_stays_in_domain samples.marshal samples.db (by decide)).2.2 1 "disabled"
      (by rfl) _ (List.mem_singleton.mpr rfl) (by rfl)⟩

end core

end Portal
